import Mathlib

/-!
Verification of the sales-report aggregation in `app/reports.tsx` (`fetchReportData`,
lines 137–234, and the chart data fix-ups at lines 871–931).

The aggregation works on JavaScript `Date` values.  We model an instant as an
integer count of milliseconds since the Unix epoch, with the timezone-naive
(local = UTC, no DST) wall-clock reading that the spec prescribes.  The civil
(proleptic Gregorian) calendar conversions mirror the ECMAScript `MakeDay` /
date-component semantics: `mkDate y m d` is `new Date(y, m, d)` (0-based month,
both month and day normalized by rollover), `getFullYear`/`getMonth`/`getDate`/
`getDay` read components, `setDate`/`setMonth` rebuild an instant keeping the
time of day.  Sale amounts are modelled as rationals (the source uses JS
numbers; all spec-level reasoning is about exact decimal sums).
-/

/-- Milliseconds in one day. -/
def msPerDay : Int := 86400000

/-! ### Day number → civil date (proleptic Gregorian)

Decomposition of a day number (days since 1970-01-01) into a 400-year era,
century-of-era, year-of-century and day-of-year, using exact Euclidean-affine
identities.  March-based months: `mp = 0` is March, `mp = 11` is February. -/

/-- 400-year era of a day number (era 0 starts 0000-03-01, day −719468). -/
def eraOf (z : Int) : Int := (z + 719468) / 146097

/-- Day within the 400-year era, in `[0, 146096]`. -/
def doeOf (z : Int) : Int := z + 719468 - 146097 * eraOf z

/-- Century within the era, in `[0, 3]`. -/
def cOf (z : Int) : Int := (4 * doeOf z + 3) / 146097

/-- Day within the century, in `[0, 36524]`. -/
def docOf (z : Int) : Int := doeOf z - 36524 * cOf z

/-- Year within the century, in `[0, 99]`. -/
def yyOf (z : Int) : Int := (4 * docOf z + 3) / 1461

/-- Day within the (March-based) year, in `[0, 365]`. -/
def doyOf (z : Int) : Int := docOf z - (365 * yyOf z + yyOf z / 4)

/-- Year within the era, in `[0, 399]`. -/
def yoeOf (z : Int) : Int := 100 * cOf z + yyOf z

/-- March-based month index, in `[0, 11]` (0 = March ... 11 = February). -/
def mpOf (z : Int) : Int := (5 * doyOf z + 2) / 153

/-- Civil day of month, in `[1, 31]`. -/
def dayOfMonth (z : Int) : Int := doyOf z - (153 * mpOf z + 2) / 5 + 1

/-- Civil month, in `[1, 12]`. -/
def monthOf (z : Int) : Int := if mpOf z < 10 then mpOf z + 3 else mpOf z - 9

/-- Civil year (January-based). -/
def yearOf (z : Int) : Int :=
  if mpOf z < 10 then yoeOf z + 400 * eraOf z else yoeOf z + 400 * eraOf z + 1

/-! ### Civil date → day number (Hinnant-style forward conversion) -/

/-- March-based year for the forward conversion. -/
def fwdYs (y m : Int) : Int := if m ≤ 2 then y - 1 else y

/-- Era of a civil year/month. -/
def fwdEra (y m : Int) : Int := fwdYs y m / 400

/-- Year-of-era of a civil year/month, in `[0, 399]`. -/
def fwdYoe (y m : Int) : Int := fwdYs y m - 400 * fwdEra y m

/-- March-based month index of civil month `m ∈ [1,12]`. -/
def fwdMp (m : Int) : Int := if m ≤ 2 then m + 9 else m - 3

/-- Day of the March-based year. -/
def fwdDoy (m d : Int) : Int := (153 * fwdMp m + 2) / 5 + d - 1

/-- Day of the era. -/
def fwdDoe (y m d : Int) : Int :=
  365 * fwdYoe y m + fwdYoe y m / 4 - fwdYoe y m / 100 + fwdDoy m d

/-- Day number (days since 1970-01-01) of a civil date; `m` is 1-based. -/
def daysFromCivil (y m d : Int) : Int := 146097 * fwdEra y m + fwdDoe y m d - 719468

/-! ### Bounds for the extraction layers -/

theorem doeOf_bounds (z : Int) : 0 ≤ doeOf z ∧ doeOf z ≤ 146096 := by
  unfold doeOf eraOf; omega

theorem cOf_bounds (z : Int) :
    0 ≤ cOf z ∧ cOf z ≤ 3 ∧ 0 ≤ docOf z ∧ docOf z ≤ 36524 := by
  have h := doeOf_bounds z
  unfold docOf cOf
  omega

theorem yyOf_bounds (z : Int) :
    0 ≤ yyOf z ∧ yyOf z ≤ 99 ∧ 0 ≤ doyOf z ∧ doyOf z ≤ 365 := by
  have h := cOf_bounds z
  unfold doyOf yyOf
  omega

theorem mpOf_bounds (z : Int) :
    0 ≤ mpOf z ∧ mpOf z ≤ 11 ∧ (153 * mpOf z + 2) / 5 ≤ doyOf z ∧
      doyOf z - (153 * mpOf z + 2) / 5 ≤ 30 := by
  have h := yyOf_bounds z
  unfold mpOf
  omega

theorem monthOf_bounds (z : Int) : 1 ≤ monthOf z ∧ monthOf z ≤ 12 := by
  have h := mpOf_bounds z
  unfold monthOf
  omega

theorem dayOfMonth_bounds (z : Int) : 1 ≤ dayOfMonth z ∧ dayOfMonth z ≤ 31 := by
  have h := mpOf_bounds z
  unfold dayOfMonth
  omega

theorem yoeOf_bounds (z : Int) : 0 ≤ yoeOf z ∧ yoeOf z ≤ 399 := by
  have h1 := cOf_bounds z
  have h2 := yyOf_bounds z
  unfold yoeOf
  omega

/-! ### Round trip: day number → civil date → day number -/

theorem daysFromCivil_extraction (z : Int) :
    daysFromCivil (yearOf z) (monthOf z) (dayOfMonth z) = z := by
  have hc := cOf_bounds z
  have hy := yyOf_bounds z
  have hmp := mpOf_bounds z
  have hyoe := yoeOf_bounds z
  have hdom := dayOfMonth_bounds z
  have hys : fwdYs (yearOf z) (monthOf z) = 400 * eraOf z + yoeOf z := by
    unfold fwdYs yearOf monthOf
    split_ifs <;> omega
  have hmpf : fwdMp (monthOf z) = mpOf z := by
    unfold fwdMp monthOf
    split_ifs <;> omega
  have hera : fwdEra (yearOf z) (monthOf z) = eraOf z := by
    unfold fwdEra
    rw [hys]
    omega
  have hyoe2 : fwdYoe (yearOf z) (monthOf z) = yoeOf z := by
    unfold fwdYoe
    rw [hys, hera]
    ring
  have hdoy : fwdDoy (monthOf z) (dayOfMonth z) = doyOf z := by
    unfold fwdDoy dayOfMonth
    rw [hmpf]
    omega
  have hdoe : fwdDoe (yearOf z) (monthOf z) (dayOfMonth z) = doeOf z := by
    unfold fwdDoe
    rw [hyoe2, hdoy]
    have h3 : doyOf z = docOf z - (365 * yyOf z + yyOf z / 4) := rfl
    have h4 : docOf z = doeOf z - 36524 * cOf z := rfl
    have h6 : (100 * cOf z + yyOf z) / 4 = 25 * cOf z + yyOf z / 4 := by omega
    have h7 : (100 * cOf z + yyOf z) / 100 = cOf z := by omega
    unfold yoeOf
    omega
  unfold daysFromCivil
  rw [hera, hdoe]
  have h5 : doeOf z = z + 719468 - 146097 * eraOf z := rfl
  omega

/-! ### Round trip: valid civil date → day number → civil date -/

theorem fwdYoe_bounds (y m : Int) : 0 ≤ fwdYoe y m ∧ fwdYoe y m ≤ 399 := by
  unfold fwdYoe fwdEra
  omega

theorem fwdMp_bounds (m : Int) (h1 : 1 ≤ m) (h2 : m ≤ 12) :
    0 ≤ fwdMp m ∧ fwdMp m ≤ 11 := by
  unfold fwdMp
  omega

theorem fwdDoy_bounds (m d : Int) (h1 : 1 ≤ m) (h2 : m ≤ 12) (h3 : 1 ≤ d) (h4 : d ≤ 28) :
    0 ≤ fwdDoy m d ∧ fwdDoy m d ≤ 364 := by
  have h := fwdMp_bounds m h1 h2
  unfold fwdDoy
  omega

theorem fwdDoe_bounds (y m d : Int) (h1 : 1 ≤ m) (h2 : m ≤ 12) (h3 : 1 ≤ d) (h4 : d ≤ 28) :
    0 ≤ fwdDoe y m d ∧ fwdDoe y m d ≤ 146096 := by
  have hy := fwdYoe_bounds y m
  have hd := fwdDoy_bounds m d h1 h2 h3 h4
  unfold fwdDoe
  omega

/-- Recovering the century from a day-of-era built out of a year-of-era `b` and a
day-of-year `doy`. -/
theorem century_recover (b doy : Int) (hb0 : 0 ≤ b) (hb1 : b ≤ 399)
    (hd0 : 0 ≤ doy) (hd1 : doy ≤ 364) :
    (4 * (365 * b + b / 4 - b / 100 + doy) + 3) / 146097 = b / 100 := by
  have e1 : b / 4 = 25 * (b / 100) + (b - 100 * (b / 100)) / 4 := by omega
  omega

theorem civil_extraction_of_daysFromCivil (y m d : Int)
    (h1 : 1 ≤ m) (h2 : m ≤ 12) (h3 : 1 ≤ d) (h4 : d ≤ 28) :
    yearOf (daysFromCivil y m d) = y ∧ monthOf (daysFromCivil y m d) = m ∧
      dayOfMonth (daysFromCivil y m d) = d := by
  have hyoe := fwdYoe_bounds y m
  have hmp := fwdMp_bounds m h1 h2
  have hdoy := fwdDoy_bounds m d h1 h2 h3 h4
  have hdoe := fwdDoe_bounds y m d h1 h2 h3 h4
  set z := daysFromCivil y m d with hz
  have hera : eraOf z = fwdEra y m := by
    unfold eraOf
    rw [hz]
    unfold daysFromCivil
    omega
  have hdoez : doeOf z = fwdDoe y m d := by
    unfold doeOf
    rw [hera, hz]
    unfold daysFromCivil
    ring
  have hfdoe : fwdDoe y m d =
      365 * fwdYoe y m + fwdYoe y m / 4 - fwdYoe y m / 100 + fwdDoy m d := rfl
  have hdoyd : fwdDoy m d = (153 * fwdMp m + 2) / 5 + d - 1 := rfl
  have hcz : cOf z = fwdYoe y m / 100 := by
    unfold cOf
    rw [hdoez, hfdoe]
    exact century_recover (fwdYoe y m) (fwdDoy m d) hyoe.1 hyoe.2 hdoy.1 hdoy.2
  have hdocz : docOf z = 365 * (fwdYoe y m - 100 * (fwdYoe y m / 100)) +
      (fwdYoe y m - 100 * (fwdYoe y m / 100)) / 4 + fwdDoy m d := by
    unfold docOf
    rw [hdoez, hcz, hfdoe]
    omega
  have hyyz : yyOf z = fwdYoe y m - 100 * (fwdYoe y m / 100) := by
    unfold yyOf
    rw [hdocz]
    omega
  have hdoyz : doyOf z = fwdDoy m d := by
    unfold doyOf
    rw [hdocz, hyyz]
    omega
  have hmpz : mpOf z = fwdMp m := by
    unfold mpOf
    rw [hdoyz, hdoyd]
    omega
  have hdz : dayOfMonth z = d := by
    unfold dayOfMonth
    rw [hdoyz, hmpz, hdoyd]
    omega
  have hmz : monthOf z = m := by
    unfold monthOf
    rw [hmpz]
    unfold fwdMp
    split_ifs <;> omega
  have hyz : yearOf z = y := by
    unfold yearOf yoeOf
    rw [hmpz, hcz, hyyz, hera]
    unfold fwdYoe fwdEra fwdYs fwdMp
    split_ifs <;> omega
  exact ⟨hyz, hmz, hdz⟩

-- Spot checks pinning the model to real calendar facts.
example : daysFromCivil 1970 1 1 = 0 := by decide
example : yearOf 0 = 1970 ∧ monthOf 0 = 1 ∧ dayOfMonth 0 = 1 := by decide
example : daysFromCivil 2024 3 15 = 19797 := by decide
example : yearOf 19797 = 2024 ∧ monthOf 19797 = 3 ∧ dayOfMonth 19797 = 15 := by decide
example : yearOf (-1) = 1969 ∧ monthOf (-1) = 12 ∧ dayOfMonth (-1) = 31 := by decide
example : daysFromCivil 2024 2 29 = 19782 := by decide
example : yearOf 19782 = 2024 ∧ monthOf 19782 = 2 ∧ dayOfMonth 19782 = 29 := by decide

/-! ### JavaScript `Date` operations

`mkDate y m d` models `new Date(y, m, d)` (0-based month; ECMAScript `MakeDay`
normalizes the month into the year by floored division and lets the day roll
over linearly).  The getters read the civil components of the instant's day;
`setDate`/`setMonth` rebuild the instant keeping the time of day. -/

def mkDate (y m d : Int) : Int := msPerDay * daysFromCivil (y + m / 12) (m % 12 + 1) d

def getFullYear (t : Int) : Int := yearOf (t / msPerDay)

def getMonth (t : Int) : Int := monthOf (t / msPerDay) - 1

def getDate (t : Int) : Int := dayOfMonth (t / msPerDay)

def getDay (t : Int) : Int := (t / msPerDay + 4) % 7

def setDate (t n : Int) : Int := mkDate (getFullYear t) (getMonth t) n + t % msPerDay

def setMonth (t n : Int) : Int := mkDate (getFullYear t) n (getDate t) + t % msPerDay

-- Spot checks: 2024-03-15 and the JS rollover behaviours used by the report code.
example : mkDate 2024 2 15 = 1710460800000 := by decide
example : mkDate 2024 3 0 = mkDate 2024 2 31 := by decide
example : mkDate 2024 (-1) 15 = mkDate 2023 11 15 := by decide
example : getDay (mkDate 2024 2 15) = 5 := by decide

theorem msPerDay_mul_div (z : Int) : msPerDay * z / msPerDay = z := by
  unfold msPerDay; omega

theorem msPerDay_mul_mod (z : Int) : msPerDay * z % msPerDay = 0 := by
  unfold msPerDay; omega

/-- `new Date(y, m, d)` with an already normalized month index `m ∈ [0, 11]`. -/
theorem mkDate_norm (y m d : Int) (h0 : 0 ≤ m) (h1 : m ≤ 11) :
    mkDate y m d = msPerDay * daysFromCivil y (m + 1) d := by
  unfold mkDate
  rw [show y + m / 12 = y by omega, show m % 12 + 1 = m + 1 by omega]

/-- Rebuilding a date from its own components gives midnight of its day. -/
theorem mkDate_getters (t : Int) :
    mkDate (getFullYear t) (getMonth t) (getDate t) = msPerDay * (t / msPerDay) := by
  unfold getFullYear getMonth getDate
  have hm := monthOf_bounds (t / msPerDay)
  rw [mkDate_norm _ _ _ (by omega) (by omega), show monthOf (t / msPerDay) - 1 + 1 =
    monthOf (t / msPerDay) by ring, daysFromCivil_extraction]

/-- The day offset in `new Date(y, m, d)` is linear. -/
theorem mkDate_day_add (y m d k : Int) :
    mkDate y m (d + k) = mkDate y m d + msPerDay * k := by
  unfold mkDate daysFromCivil fwdDoe fwdDoy
  ring

/-- Round trip through the getters for a valid calendar date (day ≤ 28, so no
month-length rollover can occur). -/
theorem getters_mkDate (y m d : Int) (h0 : 0 ≤ m) (h1 : m ≤ 11) (h2 : 1 ≤ d) (h3 : d ≤ 28) :
    getFullYear (mkDate y m d) = y ∧ getMonth (mkDate y m d) = m ∧
      getDate (mkDate y m d) = d := by
  rw [mkDate_norm y m d h0 h1]
  unfold getFullYear getMonth getDate
  rw [msPerDay_mul_div]
  have h := civil_extraction_of_daysFromCivil y (m + 1) d (by omega) (by omega) h2 h3
  exact ⟨h.1, by rw [h.2.1]; ring, h.2.2⟩

/-- Two civil dates in consecutive months (1-based, same day offset) are between
28 and 31 days apart. -/
theorem daysFromCivil_month_gap (y M d : Int) (h1 : 1 ≤ M) (h2 : M ≤ 12) :
    28 ≤ daysFromCivil y M d -
        daysFromCivil (if M = 1 then y - 1 else y) (if M = 1 then 12 else M - 1) d ∧
      daysFromCivil y M d -
        daysFromCivil (if M = 1 then y - 1 else y) (if M = 1 then 12 else M - 1) d ≤ 31 := by
  unfold daysFromCivil fwdDoe fwdDoy fwdMp fwdYoe fwdEra fwdYs
  split_ifs <;> omega

/-- `new Date(y, m, d)` compared with the previous month index, same day offset:
the gap is the length of that month, between 28 and 31 days. -/
theorem mkDate_month_gap (y m d : Int) :
    28 * msPerDay ≤ mkDate y m d - mkDate y (m - 1) d ∧
      mkDate y m d - mkDate y (m - 1) d ≤ 31 * msPerDay := by
  unfold mkDate
  have h := daysFromCivil_month_gap (y + m / 12) (m % 12 + 1) d (by omega) (by omega)
  rcases (by omega : ((m - 1) / 12 = m / 12 ∧ (m - 1) % 12 + 1 = m % 12 ∧ 1 ≤ m % 12) ∨
      ((m - 1) / 12 = m / 12 - 1 ∧ (m - 1) % 12 + 1 = 12 ∧ m % 12 = 0)) with h2 | h2
  · rw [if_neg (by omega), if_neg (by omega)] at h
    rw [h2.1, h2.2.1]
    rw [show m % 12 + 1 - 1 = m % 12 by ring] at h
    unfold msPerDay
    omega
  · rw [if_pos (by omega), if_pos (by omega)] at h
    rw [h2.1, h2.2.1]
    rw [show y + m / 12 - 1 = y + (m / 12 - 1) by ring] at h
    unfold msPerDay
    omega

/-- Midnight instants: `setDate` moves by whole days. -/
theorem setDate_shift (z k : Int) :
    setDate (msPerDay * z) (getDate (msPerDay * z) + k) = msPerDay * z + msPerDay * k := by
  unfold setDate
  rw [mkDate_day_add, mkDate_getters, msPerDay_mul_div, msPerDay_mul_mod]
  ring

/-! ### The sales data model (from `app/reports.tsx`)

A fetched sale record enters the aggregation through `new Date(sale.date)`
(an instant) and `sale.totalAmount` (a number, modelled as a rational). -/

structure Sale where
  date : Int
  totalAmount : ℚ
deriving DecidableEq

/-- One entry of `dailyTrend`: `{date: weekday-abbrev, amount}`. -/
structure TrendEntry where
  date : String
  amount : ℚ
deriving DecidableEq

/-- One entry of `weeklyDistribution`: `{day, amount}`. -/
structure DistEntry where
  day : String
  amount : ℚ
deriving DecidableEq

/-- One entry of `monthlyBreakdown`: `{month: month-abbrev, amount}`. -/
structure MonthEntry where
  month : String
  amount : ℚ
deriving DecidableEq

/-- The `ReportData` state shape of the reports screen. -/
structure ReportData where
  dailySales : ℚ
  weeklySales : ℚ
  monthlySales : ℚ
  dailyTrend : List TrendEntry
  weeklyDistribution : List DistEntry
  monthlyBreakdown : List MonthEntry
deriving DecidableEq

/-- `reduce((sum, sale) => sum + sale.totalAmount, 0)`. -/
def sumAmounts (sales : List Sale) : ℚ :=
  sales.foldl (fun sum sale => sum + sale.totalAmount) 0

/-- `toLocaleDateString('en-US', { weekday: 'short' })` / the `weekdays` table of
the source (`getDay()` is 0 = Sunday .. 6 = Saturday). -/
def weekdays : List String := ["Sun", "Mon", "Tue", "Wed", "Thu", "Fri", "Sat"]

/-- `toLocaleDateString('en-US', { month: 'short' })` month abbreviations. -/
def monthNames : List String :=
  ["Jan", "Feb", "Mar", "Apr", "May", "Jun", "Jul", "Aug", "Sep", "Oct", "Nov", "Dec"]

/-- Weekday abbreviation of an instant's calendar day. -/
def weekdayShortName (t : Int) : String := weekdays.getD (getDay t).toNat ""

/-- Month abbreviation of an instant's calendar month. -/
def monthShortName (t : Int) : String := monthNames.getD (getMonth t).toNat ""

/-! ### The aggregation of `fetchReportData` (reports.tsx lines 145–218)

`now` is the implicit `new Date()`; it is threaded explicitly per the spec. -/

/-- `const today = new Date(now.getFullYear(), now.getMonth(), now.getDate())`. -/
def todayOf (now : Int) : Int := mkDate (getFullYear now) (getMonth now) (getDate now)

/-- `const weekAgo = new Date(today.getTime() - 7 * 24 * 60 * 60 * 1000)`. -/
def weekAgoOf (now : Int) : Int := todayOf now - 7 * 24 * 60 * 60 * 1000

/-- `const monthAgo = new Date(today.getFullYear(), today.getMonth() - 1, today.getDate())`. -/
def monthAgoOf (now : Int) : Int :=
  mkDate (getFullYear (todayOf now)) (getMonth (todayOf now) - 1) (getDate (todayOf now))

/-- `dailySales`: sum over `sale => new Date(sale.date) >= today`. -/
def dailySalesOf (sales : List Sale) (now : Int) : ℚ :=
  sumAmounts (sales.filter fun sale => decide (todayOf now ≤ sale.date))

/-- `weeklySales`: sum over `sale => new Date(sale.date) >= weekAgo`. -/
def weeklySalesOf (sales : List Sale) (now : Int) : ℚ :=
  sumAmounts (sales.filter fun sale => decide (weekAgoOf now ≤ sale.date))

/-- `monthlySales`: sum over `sale => new Date(sale.date) >= monthAgo`. -/
def monthlySalesOf (sales : List Sale) (now : Int) : ℚ :=
  sumAmounts (sales.filter fun sale => decide (monthAgoOf now ≤ sale.date))

/-- `const date = new Date(today); date.setDate(date.getDate() - i)`. -/
def trendDate (now : Int) (i : Nat) : Int :=
  setDate (todayOf now) (getDate (todayOf now) - (i : Int))

/-- `const dayStart = new Date(date.getFullYear(), date.getMonth(), date.getDate())`. -/
def trendDayStart (now : Int) (i : Nat) : Int :=
  mkDate (getFullYear (trendDate now i)) (getMonth (trendDate now i))
    (getDate (trendDate now i))

/-- `const dayEnd = new Date(dayStart); dayEnd.setDate(dayEnd.getDate() + 1)`. -/
def trendDayEnd (now : Int) (i : Nat) : Int :=
  setDate (trendDayStart now i) (getDate (trendDayStart now i) + 1)

/-- One entry of the daily trend, before the final `reverse` (`i = 0` is today). -/
def dailyTrendEntryOf (sales : List Sale) (now : Int) (i : Nat) : TrendEntry :=
  { date := weekdayShortName (trendDayStart now i),
    amount := sumAmounts (sales.filter fun sale =>
      decide (trendDayStart now i ≤ sale.date ∧ sale.date < trendDayEnd now i)) }

/-- `dailyTrend = Array.from({length: 7}, (_, i) => ...).reverse()`. -/
def dailyTrendOf (sales : List Sale) (now : Int) : List TrendEntry :=
  ((List.range 7).map (dailyTrendEntryOf sales now)).reverse

/-- One weekday bucket of the weekly distribution. -/
def weeklyDistEntryOf (sales : List Sale) (now : Int) (day : String) : DistEntry :=
  { day := day,
    amount := sumAmounts (sales.filter fun sale =>
      decide (weekAgoOf now ≤ sale.date ∧
        weekdays.getD (getDay sale.date).toNat "" = day)) }

/-- `weeklyDistribution = weekdays.map(day => ...)`. -/
def weeklyDistributionOf (sales : List Sale) (now : Int) : List DistEntry :=
  weekdays.map (weeklyDistEntryOf sales now)

/-- `const date = new Date(today); date.setMonth(date.getMonth() - i)`. -/
def breakdownDate (now : Int) (i : Nat) : Int :=
  setMonth (todayOf now) (getMonth (todayOf now) - (i : Int))

/-- `const monthStart = new Date(date.getFullYear(), date.getMonth(), 1)`. -/
def monthStartOf (now : Int) (i : Nat) : Int :=
  mkDate (getFullYear (breakdownDate now i)) (getMonth (breakdownDate now i)) 1

/-- `const monthEnd = new Date(date.getFullYear(), date.getMonth() + 1, 0)`. -/
def monthEndOf (now : Int) (i : Nat) : Int :=
  mkDate (getFullYear (breakdownDate now i)) (getMonth (breakdownDate now i) + 1) 0

/-- One month bucket, before the final `reverse` (`i = 0` is the current month);
the upper bound is inclusive (`saleDate <= monthEnd`), unlike the daily bucket. -/
def monthBucketOf (sales : List Sale) (now : Int) (i : Nat) : MonthEntry :=
  { month := monthShortName (monthStartOf now i),
    amount := sumAmounts (sales.filter fun sale =>
      decide (monthStartOf now i ≤ sale.date ∧ sale.date ≤ monthEndOf now i)) }

/-- `monthlyBreakdown = Array.from({length: 6}, (_, i) => ...).reverse()`. -/
def monthlyBreakdownOf (sales : List Sale) (now : Int) : List MonthEntry :=
  ((List.range 6).map (monthBucketOf sales now)).reverse

/-- The full aggregation of `fetchReportData`, as a pure function of the fetched
sales list and `now`. -/
def fetchReportData (sales : List Sale) (now : Int) : ReportData :=
  { dailySales := dailySalesOf sales now,
    weeklySales := weeklySalesOf sales now,
    monthlySales := monthlySalesOf sales now,
    dailyTrend := dailyTrendOf sales now,
    weeklyDistribution := weeklyDistributionOf sales now,
    monthlyBreakdown := monthlyBreakdownOf sales now }

/-! ### Chart series (reports.tsx lines 871–931)

Each chart maps a bucket amount to itself, except that an amount of exactly `0`
is rendered as `0.1` so the chart stays visible. -/

/-- `reportData.dailyTrend.map(item => item.amount === 0 ? 0.1 : item.amount)`. -/
def lineChartValues (rd : ReportData) : List ℚ :=
  rd.dailyTrend.map fun item => if item.amount = 0 then 1 / 10 else item.amount

/-- Labels of the daily-trend line chart. -/
def lineChartLabels (rd : ReportData) : List String :=
  rd.dailyTrend.map fun item => item.date

/-- `reportData.weeklyDistribution.map(item => item.amount === 0 ? 0.1 : item.amount)`. -/
def weeklyBarValues (rd : ReportData) : List ℚ :=
  rd.weeklyDistribution.map fun item => if item.amount = 0 then 1 / 10 else item.amount

/-- `reportData.monthlyBreakdown.map(item => item.amount === 0 ? 0.1 : item.amount)`. -/
def monthlyBarValues (rd : ReportData) : List ℚ :=
  rd.monthlyBreakdown.map fun item => if item.amount = 0 then 1 / 10 else item.amount

/-! ### Structure of the aggregation windows -/

theorem sumAmounts_eq (l : List Sale) : sumAmounts l = (l.map Sale.totalAmount).sum := by
  suffices h : ∀ a : ℚ, l.foldl (fun sum sale => sum + sale.totalAmount) a =
      a + (l.map Sale.totalAmount).sum by
    simpa [sumAmounts] using h 0
  induction l with
  | nil => simp
  | cons x xs ih => intro a; simp [ih, add_assoc]

theorem sumAmounts_nil : sumAmounts [] = 0 := rfl

theorem sumAmounts_cons (s : Sale) (l : List Sale) :
    sumAmounts (s :: l) = s.totalAmount + sumAmounts l := by
  simp [sumAmounts_eq]

/-- `today` is midnight of `now`'s calendar day. -/
theorem todayOf_midnight (now : Int) : todayOf now = msPerDay * (now / msPerDay) :=
  mkDate_getters now

theorem todayOf_le (now : Int) : todayOf now ≤ now := by
  rw [todayOf_midnight]
  unfold msPerDay
  omega

theorem getDay_todayOf (now : Int) : getDay (todayOf now) = getDay now := by
  unfold getDay
  rw [todayOf_midnight, msPerDay_mul_div]

/-- The getters of `today` agree with the getters of `now`. -/
theorem getters_todayOf (now : Int) :
    getFullYear (todayOf now) = getFullYear now ∧
      getMonth (todayOf now) = getMonth now ∧ getDate (todayOf now) = getDate now := by
  unfold getFullYear getMonth getDate
  rw [todayOf_midnight, msPerDay_mul_div]
  exact ⟨rfl, rfl, rfl⟩

/-- `weekAgo` is exactly 7 × 24h before `today`. -/
theorem weekAgoOf_eq (now : Int) : weekAgoOf now = todayOf now - 7 * msPerDay := by
  unfold weekAgoOf msPerDay
  norm_num

/-- `monthAgo` is between 28 and 31 days before `today` (the length of the
previous calendar month), even under end-of-month rollover. -/
theorem monthAgoOf_window (now : Int) :
    monthAgoOf now + 28 * msPerDay ≤ todayOf now ∧
      todayOf now ≤ monthAgoOf now + 31 * msPerDay := by
  have h := mkDate_month_gap (getFullYear (todayOf now)) (getMonth (todayOf now))
    (getDate (todayOf now))
  have h2 : mkDate (getFullYear (todayOf now)) (getMonth (todayOf now))
      (getDate (todayOf now)) = todayOf now := by
    rw [mkDate_getters, todayOf_midnight, msPerDay_mul_div, ← todayOf_midnight]
  rw [h2] at h
  unfold monthAgoOf
  omega

/-- The trend day window: bucket `i` (0 = today) starts `i` days before `today`. -/
theorem trendDayStart_eq (now : Int) (i : Nat) :
    trendDayStart now i = todayOf now - msPerDay * (i : Int) := by
  have h1 : trendDate now i = msPerDay * (now / msPerDay - (i : Int)) := by
    unfold trendDate
    rw [todayOf_midnight,
      show getDate (msPerDay * (now / msPerDay)) - (i : Int) =
        getDate (msPerDay * (now / msPerDay)) + (-(i : Int)) by ring,
      setDate_shift]
    ring
  unfold trendDayStart
  rw [h1, mkDate_getters, msPerDay_mul_div, todayOf_midnight]
  ring

theorem trendDayEnd_eq (now : Int) (i : Nat) :
    trendDayEnd now i = todayOf now - msPerDay * (i : Int) + msPerDay := by
  unfold trendDayEnd
  rw [trendDayStart_eq, todayOf_midnight,
    show msPerDay * (now / msPerDay) - msPerDay * (i : Int) =
      msPerDay * (now / msPerDay - (i : Int)) by ring,
    setDate_shift]
  ring

/-- The bucket's `monthStart` has day-of-month 1 and the month/year of the
(rolled-over) breakdown date. -/
theorem monthStart_getters (now : Int) (i : Nat) :
    getFullYear (monthStartOf now i) = getFullYear (breakdownDate now i) ∧
      getMonth (monthStartOf now i) = getMonth (breakdownDate now i) ∧
      getDate (monthStartOf now i) = 1 := by
  have hm := monthOf_bounds (breakdownDate now i / msPerDay)
  unfold monthStartOf
  exact getters_mkDate _ _ _ (by unfold getMonth; omega) (by unfold getMonth; omega)
    (by norm_num) (by norm_num)

/-- `monthEnd` is a midnight instant. -/
theorem monthEndOf_midnight (now : Int) (i : Nat) : monthEndOf now i % msPerDay = 0 := by
  unfold monthEndOf mkDate
  exact msPerDay_mul_mod _

/-- One day after `monthEnd` is the first midnight of the next month: `monthEnd`
is midnight at the start of the last calendar day of the bucket's month. -/
theorem monthEndOf_plus_day (now : Int) (i : Nat) :
    monthEndOf now i + msPerDay = mkDate (getFullYear (breakdownDate now i))
      (getMonth (breakdownDate now i) + 1) 1 := by
  unfold monthEndOf
  have h := mkDate_day_add (getFullYear (breakdownDate now i))
    (getMonth (breakdownDate now i) + 1) 0 1
  rw [show (0 : Int) + 1 = 1 by ring] at h
  rw [h]
  ring

theorem monthStartOf_le_monthEndOf (now : Int) (i : Nat) :
    monthStartOf now i ≤ monthEndOf now i := by
  have h := mkDate_month_gap (getFullYear (breakdownDate now i))
    (getMonth (breakdownDate now i) + 1) 1
  rw [show getMonth (breakdownDate now i) + 1 - 1 = getMonth (breakdownDate now i)
    by ring] at h
  have h2 := monthEndOf_plus_day now i
  have hms : msPerDay = 86400000 := rfl
  unfold monthStartOf
  omega

/-- `new Date(y, n, d)` with the month index normalized into the year. -/
theorem mkDate_month_norm (y n d : Int) : mkDate y n d = mkDate (y + n / 12) (n % 12) d := by
  unfold mkDate
  rw [show y + n / 12 + n % 12 / 12 = y + n / 12 by omega,
    show n % 12 % 12 = n % 12 by omega]

/-- The breakdown date for bucket `i` is `new Date(y, m − i, d)` on `now`'s
components (the `setMonth` rollover applied to `today`). -/
theorem breakdownDate_eq (now : Int) (i : Nat) :
    breakdownDate now i =
      mkDate (getFullYear now) (getMonth now - (i : Int)) (getDate now) := by
  unfold breakdownDate setMonth
  have hg := getters_todayOf now
  rw [hg.1, hg.2.1, hg.2.2, todayOf_midnight, msPerDay_mul_mod, add_zero]

/-- With day-of-month ≤ 28 the `setMonth` rollover cannot overflow the target
month, so the breakdown date's components are the normalized `m − i`. -/
theorem breakdownDate_getters (now : Int) (i : Nat) (hd : getDate now ≤ 28) :
    getFullYear (breakdownDate now i) = getFullYear now + (getMonth now - (i : Int)) / 12 ∧
      getMonth (breakdownDate now i) = (getMonth now - (i : Int)) % 12 ∧
      getDate (breakdownDate now i) = getDate now := by
  have hd1 : 1 ≤ getDate now := (dayOfMonth_bounds (now / msPerDay)).1
  rw [breakdownDate_eq, mkDate_month_norm]
  exact getters_mkDate _ _ _ (by omega) (by omega) hd1 hd

theorem monthStartOf_eq (now : Int) (i : Nat) (hd : getDate now ≤ 28) :
    monthStartOf now i = mkDate (getFullYear now) (getMonth now - (i : Int)) 1 := by
  have hg := breakdownDate_getters now i hd
  unfold monthStartOf
  rw [hg.1, hg.2.1, ← mkDate_month_norm]

theorem monthStartOf_label (now : Int) (i : Nat) (hd : getDate now ≤ 28) :
    monthShortName (monthStartOf now i) =
      monthNames.getD ((getMonth now - (i : Int)) % 12).toNat "" := by
  unfold monthShortName
  rw [monthStartOf_eq now i hd, mkDate_month_norm]
  rw [(getters_mkDate _ _ _ (by omega) (by omega) (by norm_num) (by norm_num)).2.1]

theorem monthStartOf_gap (now : Int) (i : Nat) (hd : getDate now ≤ 28) :
    monthStartOf now (i + 1) + 28 * msPerDay ≤ monthStartOf now i := by
  rw [monthStartOf_eq now i hd, monthStartOf_eq now (i + 1) hd]
  have h := mkDate_month_gap (getFullYear now) (getMonth now - (i : Int)) 1
  rw [show getMonth now - (i : Int) - 1 = getMonth now - ((i + 1 : Nat) : Int) by
    push_cast; ring] at h
  omega

/-- Weakening the cutoff of a filtered sum over non-negative amounts can only
increase the sum. -/
theorem sumAmounts_filter_mono (l : List Sale) (p q : Sale → Bool)
    (hpq : ∀ s, p s = true → q s = true) (hpos : ∀ s ∈ l, 0 ≤ s.totalAmount) :
    sumAmounts (l.filter p) ≤ sumAmounts (l.filter q) := by
  induction l with
  | nil => simp
  | cons s tl ih =>
    have hpos2 : ∀ x ∈ tl, 0 ≤ x.totalAmount := fun x hx =>
      hpos x (List.mem_cons_of_mem s hx)
    have hs : (0 : ℚ) ≤ s.totalAmount := hpos s (List.mem_cons_self s tl)
    have htl := ih hpos2
    rw [List.filter_cons, List.filter_cons]
    by_cases hp : p s = true
    · rw [if_pos hp, if_pos (hpq s hp), sumAmounts_cons, sumAmounts_cons]
      linarith
    · rw [if_neg hp]
      by_cases hq : q s = true
      · rw [if_pos hq, sumAmounts_cons]
        linarith
      · rw [if_neg hq]
        exact htl

/-! ### The weekday buckets partition the trailing-week sales -/

theorem weeklySales_cons (s : Sale) (tl : List Sale) (now : Int) :
    weeklySalesOf (s :: tl) now =
      (if weekAgoOf now ≤ s.date then s.totalAmount else 0) + weeklySalesOf tl now := by
  unfold weeklySalesOf
  rw [List.filter_cons]
  by_cases h : weekAgoOf now ≤ s.date
  · rw [if_pos (by simpa using h), sumAmounts_cons, if_pos h]
  · rw [if_neg (by simpa using h), if_neg h, zero_add]

theorem weeklyDistEntry_cons (s : Sale) (tl : List Sale) (now : Int) (day : String) :
    (weeklyDistEntryOf (s :: tl) now day).amount =
      (if weekAgoOf now ≤ s.date ∧ weekdays.getD (getDay s.date).toNat "" = day
        then s.totalAmount else 0) + (weeklyDistEntryOf tl now day).amount := by
  unfold weeklyDistEntryOf
  rw [List.filter_cons]
  by_cases h : weekAgoOf now ≤ s.date ∧ weekdays.getD (getDay s.date).toNat "" = day
  · rw [if_pos (by simpa using h), sumAmounts_cons, if_pos h]
  · rw [if_neg (by simpa using h), if_neg h, zero_add]

theorem sum_map_add_q (l : List String) (f g : String → ℚ) :
    (l.map fun day => f day + g day).sum = (l.map f).sum + (l.map g).sum := by
  induction l with
  | nil => simp
  | cons x xs ih =>
    simp only [List.map_cons, List.sum_cons, ih]
    ring

/-- A sale's weekday matches exactly one of the seven canonical names. -/
theorem weekday_bucket_unique (s : Sale) (now : Int) :
    (weekdays.map fun day =>
      if weekAgoOf now ≤ s.date ∧ weekdays.getD (getDay s.date).toNat "" = day
      then s.totalAmount else 0).sum =
      if weekAgoOf now ≤ s.date then s.totalAmount else 0 := by
  have hk : (getDay s.date).toNat < 7 := by
    unfold getDay
    omega
  by_cases hp : weekAgoOf now ≤ s.date
  · simp only [hp, true_and, if_pos hp]
    set k := (getDay s.date).toNat with hkd
    interval_cases k <;> simp [weekdays]
  · simp [hp]

/-- Claim C2 core: the seven weekday buckets of `weeklyDistribution` partition
the sales at or after `weekAgo`, so their amounts sum to `weeklySales`. -/
theorem weeklyDistribution_total (sales : List Sale) (now : Int) :
    ((weeklyDistributionOf sales now).map DistEntry.amount).sum =
      weeklySalesOf sales now := by
  induction sales with
  | nil => simp [weeklyDistributionOf, weeklyDistEntryOf, weeklySalesOf, sumAmounts, weekdays]
  | cons s tl ih =>
    have hmap : (weeklyDistributionOf (s :: tl) now).map DistEntry.amount =
        weekdays.map fun day => (weeklyDistEntryOf (s :: tl) now day).amount := by
      unfold weeklyDistributionOf
      rw [List.map_map]
      rfl
    have hmap2 : (weeklyDistributionOf tl now).map DistEntry.amount =
        weekdays.map fun day => (weeklyDistEntryOf tl now day).amount := by
      unfold weeklyDistributionOf
      rw [List.map_map]
      rfl
    have hcons : (weekdays.map fun day => (weeklyDistEntryOf (s :: tl) now day).amount) =
        weekdays.map fun day =>
          (if weekAgoOf now ≤ s.date ∧ weekdays.getD (getDay s.date).toNat "" = day
            then s.totalAmount else 0) + (weeklyDistEntryOf tl now day).amount := by
      simp only [weeklyDistEntry_cons]
    rw [hmap, hcons, sum_map_add_q, weekday_bucket_unique, ← hmap2, ih,
      ← weeklySales_cons]

/-! ### The claims -/

/-- Claim C2: for every sales list and every `now`, the sum of the 7
`weeklyDistribution` bucket amounts equals `weeklyTotal`: both apply the same
lower cutoff `timestamp >= weekAgo` with no upper bound, and each sale's
timestamp falls in exactly one of the seven weekday buckets Sun..Sat. -/
theorem claim_C2 (sales : List Sale) (now : Int) :
    (((fetchReportData sales now).weeklyDistribution).map DistEntry.amount).sum =
      (fetchReportData sales now).weeklySales :=
  weeklyDistribution_total sales now

/-- Claim C3: on the empty sales list the aggregation produces all-zero totals,
a dailyTrend of exactly 7 zero entries labelled with the weekdays of the seven
trailing days (oldest first), a weeklyDistribution of exactly 7 zero entries
labelled Sun..Sat, and a monthlyBreakdown of exactly 6 zero entries with the
bucket months' labels; the function is total, so no error occurs. -/
theorem claim_C3 (now : Int) :
    (fetchReportData [] now).dailySales = 0 ∧
    (fetchReportData [] now).weeklySales = 0 ∧
    (fetchReportData [] now).monthlySales = 0 ∧
    (fetchReportData [] now).dailyTrend =
      ((List.range 7).map fun i =>
        ({ date := weekdayShortName (todayOf now - msPerDay * (i : Int)),
           amount := 0 } : TrendEntry)).reverse ∧
    (fetchReportData [] now).dailyTrend.length = 7 ∧
    (fetchReportData [] now).weeklyDistribution =
      weekdays.map (fun day => ({ day := day, amount := 0 } : DistEntry)) ∧
    (fetchReportData [] now).weeklyDistribution.length = 7 ∧
    (fetchReportData [] now).monthlyBreakdown =
      ((List.range 6).map fun i =>
        ({ month := monthShortName (monthStartOf now i), amount := 0 } : MonthEntry)).reverse ∧
    (fetchReportData [] now).monthlyBreakdown.length = 6 := by
  refine ⟨rfl, rfl, rfl, ?_, rfl, rfl, rfl, rfl, rfl⟩
  show dailyTrendOf [] now = _
  unfold dailyTrendOf dailyTrendEntryOf
  simp only [trendDayStart_eq]
  rfl

/-- Claim C4: dailyTrend always has exactly 7 entries; entry `j` (0-based) is
the day `6 − j` days before today, so the sequence runs oldest day first to
newest last, and the last entry's label is the weekday abbreviation of `now`'s
calendar day. -/
theorem claim_C4 (sales : List Sale) (now : Int) :
    (fetchReportData sales now).dailyTrend.length = 7 ∧
    (∀ j : Nat, j < 7 →
      ((fetchReportData sales now).dailyTrend.getD j
          { date := "", amount := 0 }).date =
        weekdayShortName (todayOf now - msPerDay * ((6 - j : Nat) : Int))) ∧
    ((fetchReportData sales now).dailyTrend.getD 6 { date := "", amount := 0 }).date =
      weekdayShortName now := by
  have hlist : (fetchReportData sales now).dailyTrend =
      [dailyTrendEntryOf sales now 6, dailyTrendEntryOf sales now 5,
       dailyTrendEntryOf sales now 4, dailyTrendEntryOf sales now 3,
       dailyTrendEntryOf sales now 2, dailyTrendEntryOf sales now 1,
       dailyTrendEntryOf sales now 0] := rfl
  refine ⟨by rw [hlist]; rfl, ?_, ?_⟩
  · intro j hj
    interval_cases j <;> simp [hlist, dailyTrendEntryOf, trendDayStart_eq]
  · rw [hlist]
    show (dailyTrendEntryOf sales now 0).date = weekdayShortName now
    unfold dailyTrendEntryOf
    rw [show trendDayStart now 0 = todayOf now by rw [trendDayStart_eq]; simp]
    unfold weekdayShortName
    rw [getDay_todayOf]

theorem claim_C4_witness :
    ((fetchReportData [] 0).dailyTrend.getD 2 { date := "", amount := 0 }).date =
      weekdayShortName (todayOf 0 - msPerDay * ((6 - 2 : Nat) : Int)) :=
  (claim_C4 [] 0).2.1 2 (by decide)

/-- Claim C6: a sale timestamped exactly at `today` (midnight of `now`'s
calendar day) is counted in dailySales, and a sale one millisecond before
`today` is not: the filter is `timestamp >= today`. -/
theorem claim_C6 (sales : List Sale) (s : Sale) (now : Int) :
    (s.date = todayOf now →
      dailySalesOf (s :: sales) now = s.totalAmount + dailySalesOf sales now) ∧
    (s.date = todayOf now - 1 →
      dailySalesOf (s :: sales) now = dailySalesOf sales now) := by
  constructor
  · intro h
    unfold dailySalesOf
    rw [List.filter_cons, if_pos (by simp [h]), sumAmounts_cons]
  · intro h
    unfold dailySalesOf
    rw [List.filter_cons, if_neg (by simp only [decide_eq_true_eq, h]; omega)]

theorem claim_C6_witness :
    (dailySalesOf [{ date := 0, totalAmount := 5 }, { date := -1, totalAmount := 7 }] 0 =
      5 + dailySalesOf [{ date := -1, totalAmount := 7 }] 0) ∧
    dailySalesOf [{ date := -1, totalAmount := 7 }] 0 = dailySalesOf [] 0 :=
  ⟨(claim_C6 [{ date := -1, totalAmount := 7 }] { date := 0, totalAmount := 5 } 0).1
      (by decide),
    (claim_C6 [] { date := -1, totalAmount := 7 } 0).2 (by decide)⟩

/-- Claim C10: a future-dated sale (timestamp strictly greater than `now`) is
counted in dailySales, weeklySales and monthlySales: each of the three scalar
filters imposes only a lower time bound. -/
theorem claim_C10 (sales : List Sale) (s : Sale) (now : Int) (h : now < s.date) :
    dailySalesOf (s :: sales) now = s.totalAmount + dailySalesOf sales now ∧
    weeklySalesOf (s :: sales) now = s.totalAmount + weeklySalesOf sales now ∧
    monthlySalesOf (s :: sales) now = s.totalAmount + monthlySalesOf sales now := by
  have ht := todayOf_le now
  have hw := weekAgoOf_eq now
  have hm := (monthAgoOf_window now).1
  have hms : msPerDay = 86400000 := rfl
  refine ⟨?_, ?_, ?_⟩
  · unfold dailySalesOf
    rw [List.filter_cons, if_pos (by simp only [decide_eq_true_eq]; omega), sumAmounts_cons]
  · unfold weeklySalesOf
    rw [List.filter_cons, if_pos (by simp only [decide_eq_true_eq]; omega), sumAmounts_cons]
  · unfold monthlySalesOf
    rw [List.filter_cons, if_pos (by simp only [decide_eq_true_eq]; omega), sumAmounts_cons]

theorem claim_C10_witness :
    dailySalesOf [{ date := 1, totalAmount := 2 }] 0 = 2 + dailySalesOf [] 0 :=
  (claim_C10 [] { date := 1, totalAmount := 2 } 0 (by decide)).1

/-- The concrete sales list of claim C1: totals 100 / 50 / 200 recorded at
2024-03-15 09:00, 2024-03-08 09:00 and 2024-02-01 09:00. -/
def salesC1 : List Sale :=
  [{ date := mkDate 2024 2 15 + 9 * 3600000, totalAmount := 100 },
   { date := mkDate 2024 2 8 + 9 * 3600000, totalAmount := 50 },
   { date := mkDate 2024 1 1 + 9 * 3600000, totalAmount := 200 }]

/-- The `now` of claim C1: 2024-03-15 10:00. -/
def nowC1 : Int := mkDate 2024 2 15 + 10 * 3600000

set_option maxRecDepth 40000 in
/-- The daily filter on the C1 scenario keeps only the 2024-03-15 sale. -/
theorem salesC1_daily : dailySalesOf salesC1 nowC1 = 100 := by
  unfold dailySalesOf
  rw [show salesC1.filter (fun sale => decide (todayOf nowC1 ≤ sale.date)) =
      [{ date := mkDate 2024 2 15 + 9 * 3600000, totalAmount := 100 }] by decide]
  norm_num [sumAmounts]

set_option maxRecDepth 40000 in
/-- The weekly filter on the C1 scenario keeps the Mar 15 and Mar 8 sales. -/
theorem salesC1_weekly : weeklySalesOf salesC1 nowC1 = 150 := by
  unfold weeklySalesOf
  rw [show salesC1.filter (fun sale => decide (weekAgoOf nowC1 ≤ sale.date)) =
      [{ date := mkDate 2024 2 15 + 9 * 3600000, totalAmount := 100 },
       { date := mkDate 2024 2 8 + 9 * 3600000, totalAmount := 50 }] by decide]
  norm_num [sumAmounts]

set_option maxRecDepth 40000 in
/-- The monthly filter on the C1 scenario also keeps only the Mar 15 and Mar 8
sales: `monthAgo` is 2024-02-15, after the 2024-02-01 sale. -/
theorem salesC1_monthly : monthlySalesOf salesC1 nowC1 = 150 := by
  unfold monthlySalesOf
  rw [show salesC1.filter (fun sale => decide (monthAgoOf nowC1 ≤ sale.date)) =
      [{ date := mkDate 2024 2 15 + 9 * 3600000, totalAmount := 100 },
       { date := mkDate 2024 2 8 + 9 * 3600000, totalAmount := 50 }] by decide]
  norm_num [sumAmounts]

set_option maxRecDepth 40000 in
/-- The six breakdown buckets of the C1 scenario: the Feb 1 sale is counted in
the February bucket, both March sales in the March bucket. -/
theorem salesC1_breakdown : monthlyBreakdownOf salesC1 nowC1 =
    [{ month := "Oct", amount := 0 }, { month := "Nov", amount := 0 },
     { month := "Dec", amount := 0 }, { month := "Jan", amount := 0 },
     { month := "Feb", amount := 200 }, { month := "Mar", amount := 150 }] := by
  have hb : ∀ i : Nat, monthBucketOf salesC1 nowC1 i =
      { month := monthShortName (monthStartOf nowC1 i),
        amount := sumAmounts (salesC1.filter fun sale =>
          decide (monthStartOf nowC1 i ≤ sale.date ∧ sale.date ≤ monthEndOf nowC1 i)) } :=
    fun i => rfl
  have hlist : monthlyBreakdownOf salesC1 nowC1 =
      [monthBucketOf salesC1 nowC1 5, monthBucketOf salesC1 nowC1 4,
       monthBucketOf salesC1 nowC1 3, monthBucketOf salesC1 nowC1 2,
       monthBucketOf salesC1 nowC1 1, monthBucketOf salesC1 nowC1 0] := rfl
  rw [hlist, hb 5, hb 4, hb 3, hb 2, hb 1, hb 0]
  rw [show salesC1.filter (fun sale =>
      decide (monthStartOf nowC1 5 ≤ sale.date ∧ sale.date ≤ monthEndOf nowC1 5)) = []
    by decide]
  rw [show salesC1.filter (fun sale =>
      decide (monthStartOf nowC1 4 ≤ sale.date ∧ sale.date ≤ monthEndOf nowC1 4)) = []
    by decide]
  rw [show salesC1.filter (fun sale =>
      decide (monthStartOf nowC1 3 ≤ sale.date ∧ sale.date ≤ monthEndOf nowC1 3)) = []
    by decide]
  rw [show salesC1.filter (fun sale =>
      decide (monthStartOf nowC1 2 ≤ sale.date ∧ sale.date ≤ monthEndOf nowC1 2)) = []
    by decide]
  rw [show salesC1.filter (fun sale =>
      decide (monthStartOf nowC1 1 ≤ sale.date ∧ sale.date ≤ monthEndOf nowC1 1)) =
      [{ date := mkDate 2024 1 1 + 9 * 3600000, totalAmount := 200 }] by decide]
  rw [show salesC1.filter (fun sale =>
      decide (monthStartOf nowC1 0 ≤ sale.date ∧ sale.date ≤ monthEndOf nowC1 0)) =
      [{ date := mkDate 2024 2 15 + 9 * 3600000, totalAmount := 100 },
       { date := mkDate 2024 2 8 + 9 * 3600000, totalAmount := 50 }] by decide]
  rw [show monthShortName (monthStartOf nowC1 5) = "Oct" by decide]
  rw [show monthShortName (monthStartOf nowC1 4) = "Nov" by decide]
  rw [show monthShortName (monthStartOf nowC1 3) = "Dec" by decide]
  rw [show monthShortName (monthStartOf nowC1 2) = "Jan" by decide]
  rw [show monthShortName (monthStartOf nowC1 1) = "Feb" by decide]
  rw [show monthShortName (monthStartOf nowC1 0) = "Mar" by decide]
  norm_num [sumAmounts]

/-- Claim C1 as stated is false on this input: `monthAgo` is 2024-02-15, which
excludes the 2024-02-01 sale, so monthlyTotal is 150 rather than 350. -/
theorem claim_C1_counterexample :
    ¬ ((fetchReportData salesC1 nowC1).dailySales = 100 ∧
      (fetchReportData salesC1 nowC1).weeklySales = 150 ∧
      (fetchReportData salesC1 nowC1).monthlySales = 350 ∧
      (fetchReportData salesC1 nowC1).monthlyBreakdown.getD 3
          { month := "", amount := 0 } = { month := "Jan", amount := 200 } ∧
      (fetchReportData salesC1 nowC1).monthlyBreakdown.getD 5
          { month := "", amount := 0 } = { month := "Mar", amount := 150 } ∧
      (fetchReportData salesC1 nowC1).monthlyBreakdown.getD 4
          { month := "", amount := 0 } = { month := "Feb", amount := 0 }) := by
  rintro ⟨-, -, h350, -⟩
  have h : monthlySalesOf salesC1 nowC1 = 350 := h350
  rw [salesC1_monthly] at h
  norm_num at h

/-- Claim C1 (amended): on the concrete scenario, dailyTotal = 100 and
weeklyTotal = 150 as stated, but monthlyTotal = 150 (the 2024-02-01 sale lies
before `monthAgo` = 2024-02-15), and the monthlyBreakdown buckets are
Oct..Mar with February = 200, March = 150 and January = 0. -/
theorem claim_C1 :
    (fetchReportData salesC1 nowC1).dailySales = 100 ∧
    (fetchReportData salesC1 nowC1).weeklySales = 150 ∧
    (fetchReportData salesC1 nowC1).monthlySales = 150 ∧
    (fetchReportData salesC1 nowC1).monthlyBreakdown =
      [{ month := "Oct", amount := 0 }, { month := "Nov", amount := 0 },
       { month := "Dec", amount := 0 }, { month := "Jan", amount := 0 },
       { month := "Feb", amount := 200 }, { month := "Mar", amount := 150 }] :=
  ⟨salesC1_daily, salesC1_weekly, salesC1_monthly, salesC1_breakdown⟩

set_option maxRecDepth 40000 in
/-- Claim C5 as stated is false: at `now` = 2024-03-31 the `setMonth` rollover
(Feb 31 → Mar 2, Nov 31 → Dec 1) duplicates months, so the six buckets are not
one per month from October through March. -/
theorem claim_C5_counterexample :
    ((fetchReportData [] (mkDate 2024 2 31)).monthlyBreakdown.map fun e => e.month) =
        ["Oct", "Dec", "Dec", "Jan", "Mar", "Mar"] ∧
      ((fetchReportData [] (mkDate 2024 2 31)).monthlyBreakdown.map fun e => e.month) ≠
        ["Oct", "Nov", "Dec", "Jan", "Feb", "Mar"] := by
  constructor
  · decide
  · decide

/-- Claim C5 (amended): monthlyBreakdown always has exactly 6 entries; when
`now`'s day-of-month is at most 28 — so the `setMonth` rollover cannot
overflow the target month — entry `j` (0-based) is labelled with month
`getMonth now − (5 − j)` (mod 12), one bucket per month from five months
before `now`'s month through `now`'s month, and the bucket month starts
strictly increase (each at least 28 days apart), i.e. oldest to newest. -/
theorem claim_C5 (sales : List Sale) (now : Int) :
    (fetchReportData sales now).monthlyBreakdown.length = 6 ∧
    (getDate now ≤ 28 →
      (∀ j : Nat, j < 6 →
        ((fetchReportData sales now).monthlyBreakdown.getD j
            { month := "", amount := 0 }).month =
          monthNames.getD ((getMonth now - ((5 - j : Nat) : Int)) % 12).toNat "") ∧
      (∀ i : Nat, i < 5 →
        monthStartOf now (i + 1) + 28 * msPerDay ≤ monthStartOf now i)) := by
  have hlist : (fetchReportData sales now).monthlyBreakdown =
      [monthBucketOf sales now 5, monthBucketOf sales now 4, monthBucketOf sales now 3,
       monthBucketOf sales now 2, monthBucketOf sales now 1, monthBucketOf sales now 0] :=
    rfl
  refine ⟨by rw [hlist]; rfl, fun hd => ⟨?_, fun i _ => monthStartOf_gap now i hd⟩⟩
  intro j hj
  interval_cases j <;>
    simp [hlist, monthBucketOf, monthStartOf_label _ _ hd]

theorem claim_C5_witness :
    ((fetchReportData [] 0).monthlyBreakdown.getD 5 { month := "", amount := 0 }).month =
      monthNames.getD ((getMonth 0 - ((5 - 5 : Nat) : Int)) % 12).toNat "" :=
  ((claim_C5 [] 0).2 (by decide)).1 5 (by decide)

/-- Claim C8: when every sale amount is non-negative, dailyTotal ≤ weeklyTotal
≤ monthlyTotal: the cutoffs satisfy monthAgo ≤ weekAgo ≤ today — monthAgo is
at least 25 (in fact 28) days before today even under end-of-month rollover —
and the three filters share the shape `timestamp >= cutoff`. -/
theorem claim_C8 (sales : List Sale) (now : Int)
    (hpos : ∀ s ∈ sales, 0 ≤ s.totalAmount) :
    (fetchReportData sales now).dailySales ≤ (fetchReportData sales now).weeklySales ∧
    (fetchReportData sales now).weeklySales ≤ (fetchReportData sales now).monthlySales ∧
    monthAgoOf now + 25 * msPerDay ≤ todayOf now ∧
    monthAgoOf now ≤ weekAgoOf now ∧ weekAgoOf now ≤ todayOf now := by
  have hma := monthAgoOf_window now
  have hwa := weekAgoOf_eq now
  have hms : msPerDay = 86400000 := rfl
  have h1 : weekAgoOf now ≤ todayOf now := by omega
  have h2 : monthAgoOf now ≤ weekAgoOf now := by omega
  refine ⟨?_, ?_, by omega, h2, h1⟩
  · exact sumAmounts_filter_mono sales _ _
      (fun s hs => by simp only [decide_eq_true_eq] at hs ⊢; omega) hpos
  · exact sumAmounts_filter_mono sales _ _
      (fun s hs => by simp only [decide_eq_true_eq] at hs ⊢; omega) hpos

theorem claim_C8_witness :
    (fetchReportData [{ date := 0, totalAmount := 5 }] 0).dailySales ≤
      (fetchReportData [{ date := 0, totalAmount := 5 }] 0).weeklySales :=
  (claim_C8 [{ date := 0, totalAmount := 5 }] 0 (by decide)).1

/-- Claim C9: `monthEnd` is the midnight instant starting the last calendar day
of the bucket's month (a midnight, one day before the first of the next month,
and not before `monthStart`), the bucket filter's upper bound is
`timestamp <= monthEnd`, so a sale on that last day strictly after midnight is
excluded from the bucket's amount. -/
theorem claim_C9 (sales : List Sale) (s : Sale) (now : Int) (i : Nat) :
    monthEndOf now i % msPerDay = 0 ∧
    monthEndOf now i + msPerDay =
      mkDate (getFullYear (monthStartOf now i)) (getMonth (monthStartOf now i) + 1) 1 ∧
    monthStartOf now i ≤ monthEndOf now i ∧
    (monthEndOf now i < s.date → s.date < monthEndOf now i + msPerDay →
      (monthBucketOf (s :: sales) now i).amount = (monthBucketOf sales now i).amount) := by
  have hg := monthStart_getters now i
  refine ⟨monthEndOf_midnight now i, ?_, monthStartOf_le_monthEndOf now i, ?_⟩
  · rw [hg.1, hg.2.1]
    exact monthEndOf_plus_day now i
  · intro h1 h2
    unfold monthBucketOf
    rw [List.filter_cons,
      if_neg (by simp only [decide_eq_true_eq]; rintro ⟨-, hb⟩; omega)]

theorem claim_C9_witness :
    (monthBucketOf [{ date := 2592000001, totalAmount := 3 }] 0 0).amount =
      (monthBucketOf [] 0 0).amount :=
  (claim_C9 [] { date := 2592000001, totalAmount := 3 } 0 0).2.2.2 (by decide) (by decide)

theorem getD_map_q {α : Type} (f : α → ℚ) (d : α) (l : List α) :
    ∀ j : Nat, j < l.length → (l.map f).getD j 0 = f (l.getD j d) := by
  induction l with
  | nil => intro j hj; simp at hj
  | cons x xs ih =>
    intro j hj
    cases j with
    | zero => simp
    | succ n => simpa using ih n (by simpa using hj)

/-- Claim C7: the chart series map each bucket amount to itself when nonzero
and substitute the sentinel 0.1 exactly when the amount is zero; the labels
(and the stored aggregate) are untouched. -/
theorem claim_C7 (rd : ReportData) (j : Nat) :
    lineChartLabels rd = rd.dailyTrend.map TrendEntry.date ∧
    (j < rd.dailyTrend.length →
      ((rd.dailyTrend.getD j { date := "", amount := 0 }).amount = 0 →
        (lineChartValues rd).getD j 0 = 1 / 10) ∧
      ((rd.dailyTrend.getD j { date := "", amount := 0 }).amount ≠ 0 →
        (lineChartValues rd).getD j 0 =
          (rd.dailyTrend.getD j { date := "", amount := 0 }).amount)) ∧
    (j < rd.weeklyDistribution.length →
      ((rd.weeklyDistribution.getD j { day := "", amount := 0 }).amount = 0 →
        (weeklyBarValues rd).getD j 0 = 1 / 10) ∧
      ((rd.weeklyDistribution.getD j { day := "", amount := 0 }).amount ≠ 0 →
        (weeklyBarValues rd).getD j 0 =
          (rd.weeklyDistribution.getD j { day := "", amount := 0 }).amount)) ∧
    (j < rd.monthlyBreakdown.length →
      ((rd.monthlyBreakdown.getD j { month := "", amount := 0 }).amount = 0 →
        (monthlyBarValues rd).getD j 0 = 1 / 10) ∧
      ((rd.monthlyBreakdown.getD j { month := "", amount := 0 }).amount ≠ 0 →
        (monthlyBarValues rd).getD j 0 =
          (rd.monthlyBreakdown.getD j { month := "", amount := 0 }).amount)) := by
  refine ⟨rfl, fun hj => ⟨?_, ?_⟩, fun hj => ⟨?_, ?_⟩, fun hj => ⟨?_, ?_⟩⟩ <;> intro ha
  · unfold lineChartValues
    rw [getD_map_q _ { date := "", amount := 0 } _ j hj, if_pos ha]
  · unfold lineChartValues
    rw [getD_map_q _ { date := "", amount := 0 } _ j hj, if_neg ha]
  · unfold weeklyBarValues
    rw [getD_map_q _ { day := "", amount := 0 } _ j hj, if_pos ha]
  · unfold weeklyBarValues
    rw [getD_map_q _ { day := "", amount := 0 } _ j hj, if_neg ha]
  · unfold monthlyBarValues
    rw [getD_map_q _ { month := "", amount := 0 } _ j hj, if_pos ha]
  · unfold monthlyBarValues
    rw [getD_map_q _ { month := "", amount := 0 } _ j hj, if_neg ha]

theorem claim_C7_witness :
    (lineChartValues (fetchReportData [] 0)).getD 0 0 = 1 / 10 :=
  ((claim_C7 (fetchReportData [] 0) 0).2.1 (by decide)).1 (by decide)
